import Mathlib

/-
Verification development for the DiskArchive bridge (app/DiskArchive.cpp):
a shallow embedding of the fork-pairing engine, catalog classification,
host-file loading/transcoding, the create/delete orchestrator, and the
sub-volume qualifier construction, with theorems checking the stated
properties of each component.

Strings from the C++ side (CString / wide strings) are modelled as
`List Char`; raw file bytes are modelled as `List Nat`; the C `long`
lengths are modelled as `Int` (negative values, -1 in particular, mark an
absent fork exactly as in the source).
-/

set_option maxRecDepth 4000

namespace DiskArchive

/-! ## Fork pairing engine (DiskArchive::AddToAddDataList) -/

/-- Entry kinds of a FileDetails record (FileDetails::FileKind). -/
inductive FileKind where
  | dataFork
  | rsrcFork
  | bothForks
  | diskImage
  | directory
  | unknown
deriving DecidableEq, Repr

/-- The slice of FileDetails that AddToAddDataList consults: the storage
name (display name with type tags stripped) and the entry kind. -/
structure FileDetails where
  storageName : List Char
  entryKind : FileKind
deriving DecidableEq, Repr

/-- One node of the pending-add list: its own details plus the optional
other-fork link (FileAddData::fOtherFork). -/
structure FileAddData where
  details : FileDetails
  otherFork : Option FileDetails
deriving DecidableEq, Repr

/-- The complementarity test from the body of AddToAddDataList: the two
kinds differ and each is either a data fork or a resource fork. -/
def forksComplementary (dataKind listKind : FileKind) : Bool :=
  dataKind != listKind &&
  (dataKind == FileKind.dataFork || dataKind == FileKind.rsrcFork) &&
  (listKind == FileKind.dataFork || listKind == FileKind.rsrcFork)

/-- DiskArchive::AddToAddDataList: scan the pending list for the first
unpaired node with the same storage name and a complementary kind; if
found, attach the new candidate as that node's other fork, otherwise
append the candidate at the tail as a new unpaired node. -/
def AddToAddDataList : List FileAddData → FileDetails → List FileAddData
  | [], c => [⟨c, none⟩]
  | n :: rest, c =>
    if n.otherFork = none ∧ n.details.storageName = c.storageName ∧
       forksComplementary c.entryKind n.details.entryKind = true then
      { n with otherFork := some c } :: rest
    else
      n :: AddToAddDataList rest c

/-! ## Catalog classification (DiskArchive::LoadDiskFSContents) -/

/-- Record kinds assigned to catalog entries (GenericEntry::RecordKind). -/
inductive RecordKind where
  | volumeDir
  | directory
  | forkedFile
  | file
deriving DecidableEq, Repr

/-- The slice of an A2File that the classification in LoadDiskFSContents
reads: the volume-directory flag, the directory flag and the two fork
lengths reported by the filesystem driver. -/
structure A2FileInfo where
  isVolumeDirectory : Bool
  isDirectory : Bool
  dataLength : Int
  rsrcLength : Int
deriving DecidableEq, Repr

/-- The fields of a freshly built DiskEntry that the claims consult. -/
structure EntryRec where
  recordKind : RecordKind
  dataForkLen : Int
  rsrcForkLen : Int
  hasDataFork : Bool
  hasRsrcFork : Bool
deriving DecidableEq, Repr

/-- Modelled from the spec: GenericEntry's constructor (outside this
file, in GenericArchive.cpp) initializes both fork lengths to -1, the
value that marks an absent fork; LoadDiskFSContents only overwrites them
in the branches that do so explicitly. -/
def entryDefaults : EntryRec :=
  { recordKind := RecordKind.file
    dataForkLen := -1
    rsrcForkLen := -1
    hasDataFork := false
    hasRsrcFork := false }

/-- The per-file body of DiskArchive::LoadDiskFSContents: SetHasDataFork
always, then the four-way classification in source order (volume
directory, directory, resource fork length at least zero, plain file),
setting the fork lengths exactly as the chosen branch does. -/
def buildEntry (f : A2FileInfo) : EntryRec :=
  let base := { entryDefaults with hasDataFork := true }
  if f.isVolumeDirectory then
    { base with recordKind := RecordKind.volumeDir, dataForkLen := f.dataLength }
  else if f.isDirectory then
    { base with recordKind := RecordKind.directory, dataForkLen := f.dataLength }
  else if f.rsrcLength ≥ 0 then
    { base with recordKind := RecordKind.forkedFile
                dataForkLen := f.dataLength
                rsrcForkLen := f.rsrcLength
                hasRsrcFork := true }
  else
    { base with recordKind := RecordKind.file, dataForkLen := f.dataLength }

/-! ## Sub-volume qualifiers (DiskArchive::LoadDiskFSContents, sub-volume
loop) -/

/-- The stand-in name used when a sub-volume driver reports no volume
name (the "+++" literal in the sub-volume loop). -/
def placeholderName : List Char := ['+', '+', '+']

/-- Qualifier construction from the sub-volume loop: substitute the
placeholder for a missing name, then either prepend a single underscore
(when the current level has no qualifier) or append underscore plus the
name to the parent qualifier. -/
def subVolQualifier (volName : List Char) (reported : Option (List Char)) : List Char :=
  let name := reported.getD placeholderName
  if volName = [] then '_' :: name
  else volName ++ '_' :: name

/-- Qualifiers handed to the children of one parent, in driver
enumeration order: the loop applies subVolQualifier to each reported
sub-volume name in turn. -/
def childQualifiers (volName : List Char) (reps : List (Option (List Char))) : List (List Char) :=
  reps.map (subVolQualifier volName)

/-! ## Host file loading and EOL/high-ASCII transcoding
(DiskArchive::LoadFile) -/

/-- EOL conversion request (GenericEntry::ConvertEOL). -/
inductive ConvertEOL where
  | off
  | on
  | auto
deriving DecidableEq, Repr

/-- High-ASCII conversion request (GenericEntry::ConvertHighASCII). -/
inductive ConvertHighASCII where
  | haOff
  | haOn
deriving DecidableEq, Repr

/-- Dominant line-ending type reported by the sniffer
(GenericEntry::EOLType). -/
inductive EOLType where
  | unknownEOL
  | cr
  | lf
  | crlf
deriving DecidableEq, Repr

/-- The conversion loop of LoadFile: a CR is emitted as CR with the mask
applied; an LF is dropped when the previously read byte was a CR and is
otherwise emitted as a masked CR; a NUL passes through unmasked; every
other byte is emitted with the mask applied. -/
def convertLoop : List Nat → Nat → Bool → List Nat
  | [], _, _ => []
  | b :: rest, mask, lastCR =>
    if b = 0x0d then (0x0d ||| mask) :: convertLoop rest mask true
    else if b = 0x0a then
      if lastCR then convertLoop rest mask false
      else (0x0d ||| mask) :: convertLoop rest mask false
    else if b = 0 then 0 :: convertLoop rest mask false
    else (b ||| mask) :: convertLoop rest mask false

/-- Content transformation performed by LoadFile once the file fits the
size gate: Auto reads the first 16 KiB, asks the sniffer (the external
GenericEntry::DetermineConversion, passed here as the parameter
determineConv since it lives outside this source file) and downgrades to
Off when the dominant EOL type is already CR; Off copies the bytes
through untouched; anything else runs the conversion loop with the
high-ASCII mask. -/
def LoadFileConvert (determineConv : List Nat → ConvertEOL × EOLType)
    (bytes : List Nat) (conv : ConvertEOL) (convHA : ConvertHighASCII) : List Nat :=
  let conv :=
    if conv = ConvertEOL.auto then
      let sniffed := determineConv (bytes.take 16384)
      if sniffed.1 = ConvertEOL.on ∧ sniffed.2 = EOLType.cr then ConvertEOL.off
      else sniffed.1
    else conv
  if conv = ConvertEOL.off then bytes
  else convertLoop bytes (if convHA = ConvertHighASCII.haOn then 0x80 else 0) false

/-- DiskArchive::LoadFile: a zero-length host file yields an empty
buffer; a file longer than 0x00ffffff bytes is rejected with the 16MB
capacity message before anything is read or converted; otherwise the
content transformation runs. -/
def LoadFile (determineConv : List Nat → ConvertEOL × EOLType)
    (bytes : List Nat) (conv : ConvertEOL) (convHA : ConvertHighASCII) :
    Except String (List Nat) :=
  if bytes.length = 0 then Except.ok []
  else if 0x00ffffff < bytes.length then
    Except.error "Cannot add files larger than 16MB to a disk image."
  else Except.ok (LoadFileConvert determineConv bytes conv convHA)

/-! ## Create orchestrator (DiskArchive::AddForksToDisk) -/

/-- Driver error outcomes: success, the directory-exists special case
that the directory branch tolerates, or any other error code. -/
inductive DIError where
  | noErr
  | directoryExists
  | other (code : Nat)
deriving DecidableEq, Repr

/-- Storage types of a create request (NuStorageType values). -/
inductive StorageType where
  | seedling
  | extended
  | directory
  | unknownStorage
deriving DecidableEq, Repr

/-- The fields of DiskFS::CreateParms that AddForksToDisk reads and
rewrites. -/
structure CreateParms where
  pathName : List Char
  fssep : Char
  storageType : StorageType
  fileType : Nat
  auxType : Nat
  access : Nat
deriving DecidableEq, Repr

/-- One call made against the filesystem driver, recorded in order. -/
inductive DriverCall where
  | createFile (parms : CreateParms)
  | openFork (rsrc : Bool)
  | writeFork (rsrc : Bool) (len : Int)
  | closeFork (rsrc : Bool)
  | deleteFile
deriving DecidableEq, Repr

/-- Destination capabilities consulted by AddForksToDisk, one flag per
DiskImg predicate used there. -/
structure FSCaps where
  isHierarchical : Bool
  hasResourceForks : Bool
  usesDOSFileStructure : Bool
deriving DecidableEq, Repr

/-- Outcomes the driver returns to each call AddForksToDisk can make;
passing them in makes the orchestrator a pure function of the driver's
behavior.  The delete outcome is listed even though the source discards
it with a (void) cast. -/
structure Driver where
  createErr : DIError
  createGivesFile : Bool
  dataOpenErr : DIError
  dataWriteErr : DIError
  dataCloseErr : DIError
  rsrcOpenErr : DIError
  rsrcWriteErr : DIError
  rsrcCloseErr : DIError
  deleteErr : DIError
deriving DecidableEq, Repr

/-- Modelled from the spec: the ProDOS invisible-access bit
(A2FileProDOS::kAccessInvisible, mirrored by
GenericEntry::kAccessInvisible), defined outside this source file. -/
def kAccessInvisible : Nat := 0x04

/-- Modelled from the spec: the transport's stored path separator
(PathProposal::kDefaultStoredFssep, defined outside this source file). -/
def kDefaultStoredFssep : Char := ':'

/-- The reserved empty-folder marker file name (kEmptyFolderMarker). -/
def kEmptyFolderMarker : List Char :=
  ['.', '$', '$', 'E', 'm', 'p', 't', 'y', 'F', 'o', 'l', 'd', 'e', 'r']

/-- Index of the last occurrence of a character, i.e. strrchr expressed
as an index into the list. -/
def lastIndexOfChar (c : Char) : List Char → Nat → Option Nat → Option Nat
  | [], _, acc => acc
  | x :: xs, i, acc =>
    lastIndexOfChar c xs (i + 1) (if x = c then some i else acc)

/-- Clear a flag bit from an access byte, the effect of the source's
bitwise and with the complemented flag. -/
def clearAccessBit (access flag : Nat) : Nat := access - (access &&& flag)

/-- The empty-directory-marker rewrite at the top of AddForksToDisk:
when the request has a separator and seedling storage, and the component
after the last separator is the marker with a zero-length data fork, the
request becomes a directory create whose path is CString::Left applied
at (marker index - 1) — one character short of the parent path, exactly
as the source computes it — with the DIR file type, the invisible bit
cleared, and the data length set to -1. -/
def emptyDirRewrite (p : CreateParms) (dataLen : Int) : CreateParms × Int :=
  if p.fssep ≠ Char.ofNat 0 ∧ p.storageType = StorageType.seedling then
    match lastIndexOfChar p.fssep p.pathName 0 none with
    | some i =>
      if p.pathName.drop (i + 1) = kEmptyFolderMarker ∧ dataLen = 0 then
        ({ p with storageType := StorageType.directory
                  pathName := p.pathName.take (i - 1)
                  fileType := 0x0f
                  access := clearAccessBit p.access kAccessInvisible }, -1)
      else (p, dataLen)
    | none => (p, dataLen)
  else (p, dataLen)

/-- The large-DOS-file kluge: on a DOS file structure, a data fork of
65536 bytes or more with file type BIN (0x06), INT (0xfa) or BAS (0xfc)
is retyped to the generic 0xf2. -/
def dosTypeFixup (caps : FSCaps) (fileType : Nat) (dataLen : Int) : Nat :=
  if caps.usesDOSFileStructure = true ∧ dataLen ≥ 65536 ∧
     (fileType = 0x06 ∨ fileType = 0xfa ∨ fileType = 0xfc) then 0xf2
  else fileType

/-- Open, write and close one fork, stopping at the first failure.
Returns the error, the driver calls made, and the fork whose handle is
still open when control reaches the bail label (the source only resets
its handle pointer after a successful Close). -/
def writeOneFork (d : Driver) (rsrc : Bool) (len : Int) :
    DIError × List DriverCall × Option Bool :=
  let oe := if rsrc then d.rsrcOpenErr else d.dataOpenErr
  if oe ≠ DIError.noErr then (oe, [DriverCall.openFork rsrc], none)
  else
    let we := if rsrc then d.rsrcWriteErr else d.dataWriteErr
    if we ≠ DIError.noErr then
      (we, [DriverCall.openFork rsrc, DriverCall.writeFork rsrc len], some rsrc)
    else
      let ce := if rsrc then d.rsrcCloseErr else d.dataCloseErr
      if ce ≠ DIError.noErr then
        (ce, [DriverCall.openFork rsrc, DriverCall.writeFork rsrc len,
              DriverCall.closeFork rsrc], some rsrc)
      else
        (DIError.noErr, [DriverCall.openFork rsrc, DriverCall.writeFork rsrc len,
              DriverCall.closeFork rsrc], none)

/-- The bail label of AddForksToDisk: close any still-open fork handle,
then, when an error is being propagated and a file was created, delete
the just-created file; the delete's own outcome is discarded and the
original error is returned unchanged. -/
def bailCleanup (pNewFile : Bool) (e : DIError) (trace : List DriverCall)
    (openLeft : Option Bool) : DIError × List DriverCall :=
  let t1 := match openLeft with
    | some r => trace ++ [DriverCall.closeFork r]
    | none => trace
  let t2 := if e ≠ DIError.noErr ∧ pNewFile = true then t1 ++ [DriverCall.deleteFile]
    else t1
  (e, t2)

/-- The create-and-write tail of AddForksToDisk, from the CreateFile
call onward: create the entry (bailing on failure with no file to clean
up), write the data fork when there is data to write or an empty data
fork on a real file, write the resource fork when present, and fall
through to the bail cleanup carrying the first error. -/
def addForksCore (d : Driver) (parm3 : CreateParms) (dataLen rsrcLen : Int) :
    DIError × List DriverCall :=
  if d.createErr ≠ DIError.noErr then
    bailCleanup false d.createErr [DriverCall.createFile parm3] none
  else
    let pNew := d.createGivesFile
    let doData := dataLen > 0 ∨ (dataLen = 0 ∧ pNew = true)
    let w1 := if doData then writeOneFork d false dataLen
      else (DIError.noErr, [], none)
    if w1.1 ≠ DIError.noErr then
      bailCleanup pNew w1.1 (DriverCall.createFile parm3 :: w1.2.1) w1.2.2
    else
      let w2 := if rsrcLen > 0 then writeOneFork d true rsrcLen
        else (DIError.noErr, [], none)
      bailCleanup pNew w2.1
        (DriverCall.createFile parm3 :: (w1.2.1 ++ w2.2.1)) w2.2.2

/-- DiskArchive::AddForksToDisk as a function from the destination
capabilities, the driver's behavior, the create request and the two fork
lengths to the returned error and the ordered driver calls: marker
rewrite, the directory-create branch (skipped wholesale on a
non-hierarchical destination, tolerant of directory-exists), the
resource-fork drop on destinations without resource forks (bailing out
with success when no fork remains), the DOS large-file retype, then the
create-and-write tail. -/
def AddForksToDisk (caps : FSCaps) (d : Driver) (pParms : CreateParms)
    (dataLen0 rsrcLen0 : Int) : DIError × List DriverCall :=
  let pr := emptyDirRewrite pParms dataLen0
  let parm1 := pr.1
  let dataLen := pr.2
  if parm1.storageType = StorageType.directory then
    if caps.isHierarchical = true then
      (if d.createErr = DIError.directoryExists then DIError.noErr else d.createErr,
       [DriverCall.createFile parm1])
    else (DIError.noErr, [])
  else
    let dropRsrc := caps.hasResourceForks = false ∧ rsrcLen0 ≥ 0
    let parm2 := if dropRsrc then { parm1 with storageType := StorageType.seedling }
      else parm1
    let rsrcLen := if dropRsrc then (-1 : Int) else rsrcLen0
    if dropRsrc ∧ dataLen < 0 then (DIError.noErr, [])
    else
      addForksCore d
        { parm2 with fileType := dosTypeFixup caps parm2.fileType dataLen }
        dataLen rsrcLen

/-- One iteration of the ProcessFileAddData loop for a single pending
add: resolve the storage type from whether a resource fork is present,
load the data fork (with the requested conversions) and then the
resource fork (never converted); a load failure aborts before any driver
call; otherwise hand both buffers to AddForksToDisk. -/
def ProcessOneFileAdd (determineConv : List Nat → ConvertEOL × EOLType)
    (caps : FSCaps) (d : Driver) (parms0 : CreateParms)
    (dataBytes rsrcBytes : Option (List Nat))
    (conv : ConvertEOL) (convHA : ConvertHighASCII) :
    Except String Unit × List DriverCall :=
  let parms := { parms0 with storageType :=
    if rsrcBytes.isSome then StorageType.extended else StorageType.seedling }
  let dataRes : Except String (Option (List Nat)) :=
    match dataBytes with
    | none => Except.ok none
    | some bs => (LoadFile determineConv bs conv convHA).map some
  match dataRes with
  | Except.error e => (Except.error e, [])
  | Except.ok dOpt =>
    let rsrcRes : Except String (Option (List Nat)) :=
      match rsrcBytes with
      | none => Except.ok none
      | some bs =>
        (LoadFile determineConv bs ConvertEOL.off ConvertHighASCII.haOff).map some
    match rsrcRes with
    | Except.error e => (Except.error e, [])
    | Except.ok rOpt =>
      let dataLen : Int := match dOpt with | none => -1 | some l => l.length
      let rsrcLen : Int := match rOpt with | none => -1 | some l => l.length
      let res := AddForksToDisk caps d parms dataLen rsrcLen
      (if res.1 = DIError.noErr then Except.ok ()
       else Except.error "Unable to add file to image.", res.2)

/-! ## Transfer-out of empty directories (DiskArchive::XferSelection) -/

/-- The synthetic add-request XferSelection builds for an empty
directory. -/
structure XferRequest where
  storageName : List Char
  entryKind : FileKind
  fileType : Nat
  access : Nat
  dataLen : Int
deriving DecidableEq, Repr

/-- The directory branch of the XferSelection loop: with the
preserve-empty-folders option set and no selected entry extending the
directory path plus separator (the CountMatchingPrefix probe, whose
count over the selection set is passed in), emit exactly one marker
request — path, separator, marker name — with a zero-length data fork,
the NON file type and the invisible bit added; otherwise emit nothing
for the directory. -/
def XferEmptyDirCheck (preserveEmptyFolders : Bool) (fixedPathName : List Char)
    (entryAccess : Nat) (matchingBelow : Nat) : Option XferRequest :=
  if preserveEmptyFolders = true then
    if matchingBelow = 0 then
      some { storageName := fixedPathName ++ kDefaultStoredFssep :: kEmptyFolderMarker
             entryKind := FileKind.dataFork
             fileType := 0
             access := entryAccess ||| kAccessInvisible
             dataLen := 0 }
    else none
  else none

/-! ## Delete ordering (DiskArchive::CompareDisplayNamesDesc,
DiskArchive::DeleteSelection) -/

/-- Lowercase a wide character the way the comparison routine folds
case: ASCII capitals map down, everything else is untouched. -/
def towlowerChar (c : Char) : Char :=
  if 'A' ≤ c ∧ c ≤ 'Z' then Char.ofNat (c.toNat + 32) else c

/-- Three-way lexicographic comparison of two character lists, the shape
of a C wide-string compare: the terminator makes a proper initial
segment compare less than its extension. -/
def lexCmp : List Char → List Char → Int
  | [], [] => 0
  | [], _ :: _ => -1
  | _ :: _, [] => 1
  | a :: as, b :: bs =>
    if a < b then -1
    else if b < a then 1
    else lexCmp as bs

/-- Case-insensitive wide-string comparison (_wcsicmp): compare the
case-folded characters position by position. -/
def wcsicmp (a b : List Char) : Int :=
  lexCmp (a.map towlowerChar) (b.map towlowerChar)

/-- One entry of the selection set as DeleteSelection consumes it. -/
structure SelEntry where
  displayName : List Char
deriving DecidableEq, Repr

/-- DiskArchive::CompareDisplayNamesDesc: the qsort comparator that
orders display names descending by comparing the second entry against
the first. -/
def CompareDisplayNamesDesc (e1 e2 : SelEntry) : Int :=
  wcsicmp e2.displayName e1.displayName

/-- The order in which DeleteSelection attempts deletions: the
comparator reports the first entry as not after the second. -/
def delBefore (a b : SelEntry) : Prop := CompareDisplayNamesDesc a b ≤ 0

instance : DecidableRel delBefore :=
  fun a b => inferInstanceAs (Decidable (CompareDisplayNamesDesc a b ≤ 0))

/-- DiskArchive::DeleteSelection up to the per-entry driver call: copy
the selection into an array, sort it with the descending comparator, and
attempt the deletions strictly in that order; the result is the ordered
list of entries as they are handed to DiskFS::DeleteFile. -/
def DeleteSelection (entries : List SelEntry) : List SelEntry :=
  List.insertionSort delBefore entries

/-! ## Theorems -/

/-- Helper: the conversion loop never produces more bytes than it
consumes. -/
lemma convertLoop_length_le (l : List Nat) (mask : Nat) :
    ∀ lastCR, (convertLoop l mask lastCR).length ≤ l.length := by
  induction l with
  | nil => intro lastCR; simp [convertLoop]
  | cons b rest ih =>
    intro lastCR
    by_cases hb : b = 0x0d
    · simpa [convertLoop, hb] using ih true
    · by_cases ha : b = 0x0a
      · cases lastCR
        · simpa [convertLoop, hb, ha] using ih false
        · have := ih false
          simp [convertLoop, hb, ha]
          omega
      · by_cases hz : b = 0
        · simpa [convertLoop, hb, ha, hz] using ih false
        · simpa [convertLoop, hb, ha, hz] using ih false

/-- C5: for every input byte sequence, EOL conversion mode and
high-ASCII mode, the add-side transcoding of LoadFile emits no more
bytes than it reads; per step, exactly one byte is emitted for each
input byte except an LF that immediately follows a CR, which is dropped
— bytes are never inserted. -/
theorem loadFileConvert_length_law :
    (∀ determineConv (bytes : List Nat) conv convHA,
      (LoadFileConvert determineConv bytes conv convHA).length ≤ bytes.length)
    ∧ (∀ (b : Nat) (rest : List Nat) (mask : Nat) (lastCR : Bool),
      (convertLoop (b :: rest) mask lastCR).length =
        (if b = 0x0a ∧ lastCR = true then 0 else 1) +
        (convertLoop rest mask (if b = 0x0d then true else false)).length) := by
  constructor
  · intro determineConv bytes conv convHA
    unfold LoadFileConvert
    have hgen : ∀ c : ConvertEOL,
        (if c = ConvertEOL.off then bytes
         else convertLoop bytes
           (if convHA = ConvertHighASCII.haOn then 0x80 else 0) false).length ≤
        bytes.length := by
      intro c
      by_cases hc : c = ConvertEOL.off
      · simp [hc]
      · simpa [hc] using convertLoop_length_le bytes
          (if convHA = ConvertHighASCII.haOn then 0x80 else 0) false
    exact hgen _
  · intro b rest mask lastCR
    by_cases hb : b = 0x0d
    · simp [convertLoop, hb]
      omega
    · by_cases ha : b = 0x0a
      · cases lastCR
        · simp [convertLoop, hb, ha]
          omega
        · simp [convertLoop, hb, ha]
      · by_cases hz : b = 0
        · simp [convertLoop, hb, ha, hz]
          omega
        · simp [convertLoop, hb, ha, hz]
          omega

/-- C2: every catalog entry built by LoadDiskFSContents is a forked file
exactly when its resource-fork length is non-negative; volume roots and
directories always carry resource-fork length -1; and the classification
applies the volume-root flag, the directory flag and the
resource-length test in that precedence, defaulting to a plain file. -/
theorem loadDiskFSContents_recordKind_invariant (f : A2FileInfo) :
    ((buildEntry f).recordKind = RecordKind.forkedFile ↔ (buildEntry f).rsrcForkLen ≥ 0)
    ∧ ((buildEntry f).recordKind = RecordKind.volumeDir ∨
       (buildEntry f).recordKind = RecordKind.directory →
       (buildEntry f).rsrcForkLen = -1)
    ∧ (f.isVolumeDirectory = true → (buildEntry f).recordKind = RecordKind.volumeDir)
    ∧ (f.isVolumeDirectory = false → f.isDirectory = true →
       (buildEntry f).recordKind = RecordKind.directory)
    ∧ (f.isVolumeDirectory = false → f.isDirectory = false → f.rsrcLength ≥ 0 →
       (buildEntry f).recordKind = RecordKind.forkedFile)
    ∧ (f.isVolumeDirectory = false → f.isDirectory = false → f.rsrcLength < 0 →
       (buildEntry f).recordKind = RecordKind.file) := by
  obtain ⟨vd, dir, dl, rl⟩ := f
  cases vd <;> cases dir <;> rcases le_or_lt 0 rl with h | h <;>
    simp [buildEntry, entryDefaults, h, not_le.2, le_of_lt]

/-- Witness for C2: a plain file with both fork lengths reported is
classified as a forked file. -/
theorem loadDiskFSContents_recordKind_invariant_witness :
    (buildEntry ⟨false, false, 10, 3⟩).recordKind = RecordKind.forkedFile :=
  (loadDiskFSContents_recordKind_invariant ⟨false, false, 10, 3⟩).2.2.2.2.1 rfl rfl
    (by decide)

/-- C3: a host file of 0x00ffffff bytes passes LoadFile's capacity gate,
while one of 0x01000000 bytes makes the whole per-file add fail with the
16MB capacity message and an empty driver-call trace — no create or
write reaches the filesystem driver. -/
theorem loadFile_capacity_boundary :
    (∀ determineConv (bytes : List Nat) conv convHA, bytes.length = 0x00ffffff →
      ∃ out, LoadFile determineConv bytes conv convHA = Except.ok out)
    ∧ (∀ determineConv caps d parms (bytes : List Nat) rsrcBytes conv convHA,
      bytes.length = 0x01000000 →
      ProcessOneFileAdd determineConv caps d parms (some bytes) rsrcBytes conv convHA =
        (Except.error "Cannot add files larger than 16MB to a disk image.", [])) := by
  constructor
  · intro determineConv bytes conv convHA h
    refine ⟨LoadFileConvert determineConv bytes conv convHA, ?_⟩
    unfold LoadFile
    rw [if_neg (by omega), if_neg (by omega)]
  · intro determineConv caps d parms bytes rsrcBytes conv convHA h
    have h1 : LoadFile determineConv bytes conv convHA =
        Except.error "Cannot add files larger than 16MB to a disk image." := by
      unfold LoadFile
      rw [if_neg (by omega), if_pos (by omega)]
    simp [ProcessOneFileAdd, h1, Except.map]

/-- Witness for C3: the boundary evaluated at concrete byte buffers of
lengths 0x00ffffff and 0x01000000. -/
theorem loadFile_capacity_boundary_witness :
    (∃ out, LoadFile (fun _ => (ConvertEOL.off, EOLType.unknownEOL))
      (List.replicate 0x00ffffff 0) ConvertEOL.off ConvertHighASCII.haOff =
      Except.ok out)
    ∧ ProcessOneFileAdd (fun _ => (ConvertEOL.off, EOLType.unknownEOL))
      ⟨true, true, false⟩
      ⟨DIError.noErr, true, DIError.noErr, DIError.noErr, DIError.noErr,
       DIError.noErr, DIError.noErr, DIError.noErr, DIError.noErr⟩
      ⟨[], Char.ofNat 0, StorageType.seedling, 0, 0, 0⟩
      (some (List.replicate 0x01000000 0)) none ConvertEOL.off ConvertHighASCII.haOff =
      (Except.error "Cannot add files larger than 16MB to a disk image.", []) :=
  ⟨loadFile_capacity_boundary.1 _ _ _ _ (by rw [List.length_replicate]),
   loadFile_capacity_boundary.2 _ _ _ _ _ _ _ _ (by rw [List.length_replicate])⟩

/-- C6 (code behavior at the failing input): transferring out the empty
directory DIR1 with preserve-empty-folders enabled yields exactly the
marker request with a zero-length data fork and storage name
DIR1:.$$EmptyFolder; feeding that request back through the marker
recognition in AddForksToDisk yields a directory-create request — DIR
file type, invisible bit cleared, no data fork — but for the path DIR,
not the original parent path DIR1: CString::Left is applied at
(separator index - 1), chopping the last character of the parent. -/
theorem emptyFolderRoundTrip_truncates_parent :
    XferEmptyDirCheck true "DIR1".toList 0 0 =
      some { storageName := "DIR1:.$$EmptyFolder".toList
             entryKind := FileKind.dataFork
             fileType := 0
             access := 4
             dataLen := 0 }
    ∧ emptyDirRewrite
        { pathName := "DIR1:.$$EmptyFolder".toList
          fssep := ':'
          storageType := StorageType.seedling
          fileType := 0
          auxType := 0
          access := 4 } 0 =
      ({ pathName := "DIR".toList
         fssep := ':'
         storageType := StorageType.directory
         fileType := 0x0f
         auxType := 0
         access := 0 }, -1)
    ∧ "DIR".toList ≠ "DIR1".toList := by
  refine ⟨by decide, by decide, by decide⟩

/-- C10 counterexample: two sibling sub-volumes that both report the
native name FOO receive the identical qualifier _FOO — the qualifiers at
that depth are not distinct strings. -/
theorem subVolQualifier_sibling_collision :
    childQualifiers [] [some ['F', 'O', 'O'], some ['F', 'O', 'O']] =
      [['_', 'F', 'O', 'O'], ['_', 'F', 'O', 'O']]
    ∧ ¬ (childQualifiers [] [some ['F', 'O', 'O'], some ['F', 'O', 'O']]).Nodup := by
  exact ⟨by decide, by decide⟩

/-- C10 (amended): qualifiers are built by prefixing an underscore to
the native name (or the placeholder), concatenating the parent qualifier
in front when one exists; sibling sub-volumes are collision-free exactly
when their reported names (after placeholder substitution) are pairwise
distinct. -/
theorem subVolQualifier_construction_inj :
    (∀ reported, subVolQualifier [] reported = '_' :: reported.getD placeholderName)
    ∧ (∀ volName reported, volName ≠ [] →
        subVolQualifier volName reported =
          volName ++ '_' :: reported.getD placeholderName)
    ∧ (∀ volName n1 n2, n1.getD placeholderName ≠ n2.getD placeholderName →
        subVolQualifier volName n1 ≠ subVolQualifier volName n2)
    ∧ (∀ volName (reps : List (Option (List Char))),
        (reps.map (fun n => n.getD placeholderName)).Nodup →
        (childQualifiers volName reps).Nodup) := by
  have hinj : ∀ volName : List Char,
      Function.Injective (fun name : List Char =>
        if volName = [] then '_' :: name else volName ++ '_' :: name) := by
    intro volName x y hxy
    by_cases hv : volName = []
    · simp [hv] at hxy
      exact hxy
    · simp [hv] at hxy
      exact hxy
  refine ⟨?_, ?_, ?_, ?_⟩
  · intro reported; simp [subVolQualifier]
  · intro volName reported hv; simp [subVolQualifier, hv]
  · intro volName n1 n2 hne heq
    exact hne (hinj volName heq)
  · intro volName reps hnodup
    have hrw : childQualifiers volName reps =
        (reps.map (fun n => n.getD placeholderName)).map
          (fun name => if volName = [] then '_' :: name else volName ++ '_' :: name) := by
      simp [childQualifiers, subVolQualifier, Function.comp]
    rw [hrw]
    exact hnodup.map (hinj volName)

/-- Witness for C10 (amended): distinct sibling names yield distinct
qualifiers under a concrete parent qualifier. -/
theorem subVolQualifier_construction_inj_witness :
    subVolQualifier ['_', 'P'] (some ['A']) ≠ subVolQualifier ['_', 'P'] (some ['B']) :=
  subVolQualifier_construction_inj.2.2.1 _ _ _ (by decide)

/-- Helper: AddToAddDataList either appends the candidate as a new
unpaired tail node, or attaches it as the other fork of the first
unpaired node with the same storage name and a complementary kind. -/
lemma addToAddDataList_char (l : List FileAddData) (c : FileDetails) :
    AddToAddDataList l c = l ++ [⟨c, none⟩] ∨
    ∃ i, ∃ h : i < l.length,
      (l.get ⟨i, h⟩).otherFork = none ∧
      (l.get ⟨i, h⟩).details.storageName = c.storageName ∧
      forksComplementary c.entryKind (l.get ⟨i, h⟩).details.entryKind = true ∧
      AddToAddDataList l c =
        l.set i { l.get ⟨i, h⟩ with otherFork := some c } := by
  induction l with
  | nil => left; rfl
  | cons n rest ih =>
    by_cases hc : n.otherFork = none ∧ n.details.storageName = c.storageName ∧
        forksComplementary c.entryKind n.details.entryKind = true
    · right
      refine ⟨0, by simp, ?_, ?_, ?_, ?_⟩
      · simpa using hc.1
      · simpa using hc.2.1
      · simpa using hc.2.2
      · simp [AddToAddDataList, hc]
    · rcases ih with h | ⟨i, hi, h1, h2, h3, h4⟩
      · left
        simp [AddToAddDataList, hc, h]
      · right
        refine ⟨i + 1, by simpa using Nat.succ_lt_succ hi, ?_, ?_, ?_, ?_⟩
        · simpa using h1
        · simpa using h2
        · simpa using h3
        · simp [AddToAddDataList, hc]
          simpa using h4

/-- C1: submitting two candidates with equal storage names and
complementary kinds — data fork and resource fork, in either order —
merges them into a single node carrying both forks; two same-kind
candidates stay two separate unpaired nodes; a node that already carries
an other-fork link is never touched again; and a whole-disk-image
candidate neither pairs onto the list nor receives a pairing. -/
theorem addToAddDataList_pairing :
    (∀ c1 c2 : FileDetails, c1.storageName = c2.storageName →
      ((c1.entryKind = FileKind.dataFork ∧ c2.entryKind = FileKind.rsrcFork) ∨
       (c1.entryKind = FileKind.rsrcFork ∧ c2.entryKind = FileKind.dataFork)) →
      AddToAddDataList (AddToAddDataList [] c1) c2 = [⟨c1, some c2⟩])
    ∧ (∀ c1 c2 : FileDetails, c1.storageName = c2.storageName →
      c1.entryKind = c2.entryKind →
      AddToAddDataList (AddToAddDataList [] c1) c2 = [⟨c1, none⟩, ⟨c2, none⟩])
    ∧ (∀ (l : List FileAddData) (c : FileDetails) (n : FileAddData),
      n ∈ l → n.otherFork ≠ none → n ∈ AddToAddDataList l c)
    ∧ (∀ (l : List FileAddData) (c : FileDetails),
      c.entryKind = FileKind.diskImage →
      AddToAddDataList l c = l ++ [⟨c, none⟩])
    ∧ (∀ (l : List FileAddData) (c : FileDetails) (n : FileAddData),
      n ∈ l → n.details.entryKind = FileKind.diskImage →
      n ∈ AddToAddDataList l c) := by
  refine ⟨?_, ?_, ?_, ?_, ?_⟩
  · intro c1 c2 hname hkinds
    rcases hkinds with ⟨h1, h2⟩ | ⟨h1, h2⟩ <;>
      simp [AddToAddDataList, forksComplementary, hname, h1, h2]
  · intro c1 c2 hname hkind
    simp [AddToAddDataList, forksComplementary, hname, hkind]
  · intro l c n hmem hpaired
    induction l with
    | nil => cases hmem
    | cons m rest ih =>
      by_cases hc : m.otherFork = none ∧ m.details.storageName = c.storageName ∧
          forksComplementary c.entryKind m.details.entryKind = true
      · rcases List.mem_cons.1 hmem with heq | htail
        · exact absurd (heq ▸ hc.1) hpaired
        · simp [AddToAddDataList, hc]
          exact Or.inr htail
      · rcases List.mem_cons.1 hmem with hnm | htail
        · simp [AddToAddDataList, hc, hnm]
        · simp [AddToAddDataList, hc]
          exact Or.inr (ih htail)
  · intro l c hkind
    induction l with
    | nil => rfl
    | cons m rest ih =>
      have hnc : ¬ (m.otherFork = none ∧ m.details.storageName = c.storageName ∧
          forksComplementary c.entryKind m.details.entryKind = true) := by
        rintro ⟨-, -, h3⟩
        rw [hkind] at h3
        simp [forksComplementary] at h3
      simp [AddToAddDataList, hnc, ih]
  · intro l c n hmem hkind
    induction l with
    | nil => cases hmem
    | cons m rest ih =>
      by_cases hc : m.otherFork = none ∧ m.details.storageName = c.storageName ∧
          forksComplementary c.entryKind m.details.entryKind = true
      · rcases List.mem_cons.1 hmem with hnm | htail
        · subst hnm
          rw [hkind] at hc
          simp [forksComplementary] at hc
        · simp [AddToAddDataList, hc]
          exact Or.inr htail
      · rcases List.mem_cons.1 hmem with hnm | htail
        · simp [AddToAddDataList, hc, hnm]
        · simp [AddToAddDataList, hc]
          exact Or.inr (ih htail)

/-- Witness for C1: concrete FOO data-fork and resource-fork candidates
merge into one node, in both submission orders. -/
theorem addToAddDataList_pairing_witness :
    AddToAddDataList (AddToAddDataList []
        ⟨['F', 'O', 'O'], FileKind.dataFork⟩) ⟨['F', 'O', 'O'], FileKind.rsrcFork⟩ =
      [⟨⟨['F', 'O', 'O'], FileKind.dataFork⟩, some ⟨['F', 'O', 'O'], FileKind.rsrcFork⟩⟩]
    ∧ AddToAddDataList (AddToAddDataList []
        ⟨['F', 'O', 'O'], FileKind.rsrcFork⟩) ⟨['F', 'O', 'O'], FileKind.dataFork⟩ =
      [⟨⟨['F', 'O', 'O'], FileKind.rsrcFork⟩, some ⟨['F', 'O', 'O'], FileKind.dataFork⟩⟩] :=
  ⟨addToAddDataList_pairing.1 _ _ rfl (Or.inl ⟨rfl, rfl⟩),
   addToAddDataList_pairing.1 _ _ rfl (Or.inr ⟨rfl, rfl⟩)⟩

/-- Helper: comparing the empty list never reports greater. -/
lemma lexCmp_nil_le (y : List Char) : lexCmp [] y ≤ 0 := by
  cases y <;> simp [lexCmp]

/-- Helper: lexCmp is antisymmetric up to negation. -/
lemma lexCmp_anti : ∀ x y : List Char, lexCmp x y = - lexCmp y x := by
  intro x
  induction x with
  | nil => intro y; cases y <;> simp [lexCmp]
  | cons a as ih =>
    intro y
    cases y with
    | nil => simp [lexCmp]
    | cons b bs =>
      by_cases h1 : a < b
      · have h2 : ¬ b < a := lt_asymm h1
        simp [lexCmp, h1, h2]
      · by_cases h2 : b < a
        · simp [lexCmp, h1, h2]
        · simp [lexCmp, h1, h2, ih bs]

/-- Helper: a non-positive comparison unfolds to either a strictly
smaller head or equal heads with a non-positive tail comparison. -/
lemma lexCmp_cons_le {a b : Char} {as bs : List Char}
    (h : lexCmp (a :: as) (b :: bs) ≤ 0) :
    a < b ∨ (a = b ∧ lexCmp as bs ≤ 0) := by
  by_cases h1 : a < b
  · exact Or.inl h1
  · by_cases h2 : b < a
    · simp [lexCmp, h1, h2] at h
    · exact Or.inr ⟨le_antisymm (not_lt.1 h2) (not_lt.1 h1),
        by simpa [lexCmp, h1, h2] using h⟩

/-- Helper: non-positive lexCmp is transitive. -/
lemma lexCmp_le_trans : ∀ x y z : List Char,
    lexCmp x y ≤ 0 → lexCmp y z ≤ 0 → lexCmp x z ≤ 0 := by
  intro x
  induction x with
  | nil => intro y z _ _; exact lexCmp_nil_le z
  | cons a as ih =>
    intro y z hxy hyz
    cases y with
    | nil => simp [lexCmp] at hxy
    | cons b bs =>
      cases z with
      | nil => simp [lexCmp] at hyz
      | cons c cs =>
        rcases lexCmp_cons_le hxy with hab | ⟨hab, htab⟩ <;>
          rcases lexCmp_cons_le hyz with hbc | ⟨hbc, htbc⟩
        · have : a < c := lt_trans hab hbc
          simp [lexCmp, this]
        · have : a < c := hbc ▸ hab
          simp [lexCmp, this]
        · have : a < c := hab ▸ hbc
          simp [lexCmp, this]
        · subst hab; subst hbc
          simp [lexCmp, lt_irrefl]
          exact ih bs cs htab htbc

/-- Helper: a list extended by a non-empty suffix compares strictly
greater than the list itself. -/
lemma lexCmp_append_self (u v : List Char) :
    lexCmp (u ++ v) u = if v = [] then 0 else 1 := by
  induction u with
  | nil => cases v <;> simp [lexCmp]
  | cons a u ih => simpa [lexCmp, lt_irrefl] using ih

/-- The deletion-attempt order is total: one of any two entries is
attempted no later than the other. -/
instance : IsTotal SelEntry delBefore where
  total a b := by
    unfold delBefore CompareDisplayNamesDesc wcsicmp
    have h := lexCmp_anti (List.map towlowerChar b.displayName)
      (List.map towlowerChar a.displayName)
    omega

/-- The deletion-attempt order is transitive. -/
instance : IsTrans SelEntry delBefore where
  trans _ _ _ hab hbc := lexCmp_le_trans _ _ _ hbc hab

/-- Helper: an entry ordered no later than another is never a proper
path ancestor of it (its display name is not extended by the other). -/
lemma delBefore_not_extension (a b : SelEntry) (h : delBefore a b) :
    ¬ ∃ t, t ≠ [] ∧ b.displayName = a.displayName ++ t := by
  rintro ⟨t, ht, hb⟩
  unfold delBefore CompareDisplayNamesDesc wcsicmp at h
  rw [hb, List.map_append, lexCmp_append_self] at h
  have hne : List.map towlowerChar t ≠ [] := by simpa using ht
  simp [hne] at h

/-- C4: DeleteSelection attempts deletions in an order that is sorted
descending by the case-folded display-path comparator, is exactly the
selected entries (each attempted once), never attempts a path before
any of its proper descendants; in particular the selection /A, /A/B,
/A/B/C is attempted as /A/B/C, /A/B, /A from every submission order. -/
theorem deleteSelection_order :
    (∀ entries : List SelEntry, List.Sorted delBefore (DeleteSelection entries))
    ∧ (∀ entries : List SelEntry, List.Perm (DeleteSelection entries) entries)
    ∧ (∀ entries : List SelEntry, List.Pairwise
        (fun a b => ¬ ∃ t, t ≠ [] ∧ b.displayName = a.displayName ++ t)
        (DeleteSelection entries))
    ∧ (∀ l : List SelEntry,
        l.Perm [⟨"/A".toList⟩, ⟨"/A/B".toList⟩, ⟨"/A/B/C".toList⟩] →
        DeleteSelection l = [⟨"/A/B/C".toList⟩, ⟨"/A/B".toList⟩, ⟨"/A".toList⟩]) := by
  refine ⟨?_, ?_, ?_, ?_⟩
  · intro entries; exact List.sorted_insertionSort delBefore entries
  · intro entries; exact List.perm_insertionSort delBefore entries
  · intro entries
    exact List.Pairwise.imp (fun hab => delBefore_not_extension _ _ hab)
      (List.sorted_insertionSort delBefore entries)
  · intro l hl
    obtain _ | ⟨x, l⟩ := l
    · simpa using hl.length_eq
    obtain _ | ⟨y, l⟩ := l
    · simpa using hl.length_eq
    obtain _ | ⟨z, l⟩ := l
    · simpa using hl.length_eq
    obtain _ | ⟨w, l⟩ := l
    case cons =>
      have h := hl.length_eq
      simp at h
    have hx : x ∈ ([⟨"/A".toList⟩, ⟨"/A/B".toList⟩,
        ⟨"/A/B/C".toList⟩] : List SelEntry) := hl.subset (by simp)
    have hy : y ∈ ([⟨"/A".toList⟩, ⟨"/A/B".toList⟩,
        ⟨"/A/B/C".toList⟩] : List SelEntry) := hl.subset (by simp)
    have hz : z ∈ ([⟨"/A".toList⟩, ⟨"/A/B".toList⟩,
        ⟨"/A/B/C".toList⟩] : List SelEntry) := hl.subset (by simp)
    fin_cases hx <;> fin_cases hy <;> fin_cases hz <;> revert hl <;> decide

/-- Witness for C4: one concrete submission order of the three nested
paths is attempted deepest first. -/
theorem deleteSelection_order_witness :
    DeleteSelection [⟨"/A".toList⟩, ⟨"/A/B/C".toList⟩, ⟨"/A/B".toList⟩] =
      [⟨"/A/B/C".toList⟩, ⟨"/A/B".toList⟩, ⟨"/A".toList⟩] :=
  deleteSelection_order.2.2.2 _ (by decide)

/-- Helper: the marker rewrite does nothing unless the incoming request
has seedling storage. -/
lemma emptyDirRewrite_of_nonseedling (p : CreateParms) (dl : Int)
    (h : p.storageType ≠ StorageType.seedling) : emptyDirRewrite p dl = (p, dl) := by
  unfold emptyDirRewrite
  rw [if_neg]
  rintro ⟨-, h2⟩
  exact h h2

/-- Helper: the marker rewrite either leaves the request untouched or
turns it into a directory request. -/
lemma emptyDirRewrite_eq_or_dir (p : CreateParms) (dl : Int) :
    emptyDirRewrite p dl = (p, dl) ∨
    (emptyDirRewrite p dl).1.storageType = StorageType.directory := by
  unfold emptyDirRewrite
  split
  · split
    · split
      · right; rfl
      · left; rfl
    · left; rfl
  · left; rfl

/-- Helper: the bail label returns the error it was handed. -/
lemma bailCleanup_fst (pNew : Bool) (e : DIError) (trace : List DriverCall)
    (openLeft : Option Bool) : (bailCleanup pNew e trace openLeft).1 = e := by
  unfold bailCleanup
  cases openLeft <;> split <;> rfl

/-- Helper: every call emitted by the bail label is one of the incoming
trace, a close of the still-open fork, or the cleanup delete. -/
lemma bailCleanup_calls (pNew : Bool) (e : DIError) (trace : List DriverCall)
    (openLeft : Option Bool) (call : DriverCall)
    (h : call ∈ (bailCleanup pNew e trace openLeft).2) :
    call ∈ trace ∨ (∃ r, openLeft = some r ∧ call = DriverCall.closeFork r) ∨
    call = DriverCall.deleteFile := by
  unfold bailCleanup at h
  cases openLeft with
  | none =>
    dsimp only at h
    by_cases hC : e ≠ DIError.noErr ∧ pNew = true
    · rw [if_pos hC] at h
      rcases List.mem_append.1 h with hm | hm
      · exact Or.inl hm
      · right; right; simpa using hm
    · rw [if_neg hC] at h
      exact Or.inl h
  | some r =>
    dsimp only at h
    by_cases hC : e ≠ DIError.noErr ∧ pNew = true
    · rw [if_pos hC] at h
      rcases List.mem_append.1 h with hm | hm
      · rcases List.mem_append.1 hm with hm2 | hm2
        · exact Or.inl hm2
        · right; left; exact ⟨r, rfl, by simpa using hm2⟩
      · right; right; simpa using hm
    · rw [if_neg hC] at h
      rcases List.mem_append.1 h with hm | hm
      · exact Or.inl hm
      · right; left; exact ⟨r, rfl, by simpa using hm⟩

/-- Helper: when an error is propagated and a file was created, the bail
label's trace ends with the cleanup delete. -/
lemma bailCleanup_delete_last (pNew : Bool) (e : DIError) (trace : List DriverCall)
    (openLeft : Option Bool) (he : e ≠ DIError.noErr) (hp : pNew = true) :
    ∃ t, (bailCleanup pNew e trace openLeft).2 = t ++ [DriverCall.deleteFile] := by
  unfold bailCleanup
  cases openLeft with
  | none =>
    dsimp only
    rw [if_pos ⟨he, hp⟩]
    exact ⟨trace, rfl⟩
  | some r =>
    dsimp only
    rw [if_pos ⟨he, hp⟩]
    exact ⟨trace ++ [DriverCall.closeFork r], by simp⟩

/-- Helper: the fork-write sequence only touches the fork it was asked
to write. -/
lemma writeOneFork_calls (d : Driver) (r : Bool) (len : Int) (call : DriverCall)
    (h : call ∈ (writeOneFork d r len).2.1) :
    call = DriverCall.openFork r ∨ call = DriverCall.writeFork r len ∨
    call = DriverCall.closeFork r := by
  unfold writeOneFork at h
  by_cases h1 : (if r = true then d.rsrcOpenErr else d.dataOpenErr) ≠ DIError.noErr
  · rw [if_pos h1] at h
    simp at h
    tauto
  · rw [if_neg h1] at h
    by_cases h2 : (if r = true then d.rsrcWriteErr else d.dataWriteErr) ≠ DIError.noErr
    · rw [if_pos h2] at h
      simp at h
      tauto
    · rw [if_neg h2] at h
      by_cases h3 : (if r = true then d.rsrcCloseErr else d.dataCloseErr) ≠ DIError.noErr
      · rw [if_pos h3] at h
        simp at h
        tauto
      · rw [if_neg h3] at h
        simp at h
        tauto

/-- Helper: a handle left open by the fork-write sequence belongs to the
fork it wrote. -/
lemma writeOneFork_openLeft (d : Driver) (r : Bool) (len : Int) :
    (writeOneFork d r len).2.2 = none ∨ (writeOneFork d r len).2.2 = some r := by
  unfold writeOneFork
  by_cases h1 : (if r = true then d.rsrcOpenErr else d.dataOpenErr) ≠ DIError.noErr
  · rw [if_pos h1]
    simp
  · rw [if_neg h1]
    by_cases h2 : (if r = true then d.rsrcWriteErr else d.dataWriteErr) ≠ DIError.noErr
    · rw [if_pos h2]
      simp
    · rw [if_neg h2]
      by_cases h3 : (if r = true then d.rsrcCloseErr else d.dataCloseErr) ≠ DIError.noErr
      · rw [if_pos h3]
        simp
      · rw [if_neg h3]
        simp

/-- Helper: every driver call made by the create-and-write tail is the
create call itself, a fork operation that touches the resource side only
when a resource fork is actually being written, or the cleanup delete. -/
lemma addForksCore_calls (d : Driver) (q : CreateParms) (dataLen rsrcLen : Int) :
    ∀ call ∈ (addForksCore d q dataLen rsrcLen).2,
      call = DriverCall.createFile q
      ∨ (∃ r len2, (call = DriverCall.openFork r ∨ call = DriverCall.writeFork r len2 ∨
          call = DriverCall.closeFork r) ∧ (r = true → rsrcLen > 0))
      ∨ call = DriverCall.deleteFile := by
  intro call hcall
  unfold addForksCore at hcall
  by_cases hce : d.createErr ≠ DIError.noErr
  · rw [if_pos hce] at hcall
    rcases bailCleanup_calls _ _ _ _ _ hcall with hm | ⟨r, hr, -⟩ | hdel
    · left; simpa using hm
    · cases hr
    · right; right; exact hdel
  · rw [if_neg hce] at hcall
    dsimp only at hcall
    by_cases hdo : dataLen > 0 ∨ (dataLen = 0 ∧ d.createGivesFile = true)
    · rw [if_pos hdo] at hcall
      by_cases hw1 : (writeOneFork d false dataLen).1 ≠ DIError.noErr
      · rw [if_pos hw1] at hcall
        rcases bailCleanup_calls _ _ _ _ _ hcall with hm | ⟨r, hr, hcl⟩ | hdel
        · rcases List.mem_cons.1 hm with hcr | hm
          · left; exact hcr
          · right; left
            rcases writeOneFork_calls _ _ _ _ hm with h | h | h <;>
              exact ⟨false, dataLen, by tauto, by simp⟩
        · rcases writeOneFork_openLeft d false dataLen with ho | ho <;> rw [ho] at hr
          · cases hr
          · obtain rfl := Option.some_inj.1 hr
            right; left
            exact ⟨false, dataLen, Or.inr (Or.inr hcl), by simp⟩
        · right; right; exact hdel
      · rw [if_neg hw1] at hcall
        by_cases hrl : rsrcLen > 0
        · rw [if_pos hrl] at hcall
          rcases bailCleanup_calls _ _ _ _ _ hcall with hm | ⟨r, hr, hcl⟩ | hdel
          · rcases List.mem_cons.1 hm with hcr | hm
            · left; exact hcr
            · rcases List.mem_append.1 hm with hm2 | hm2
              · right; left
                rcases writeOneFork_calls _ _ _ _ hm2 with h | h | h <;>
                  exact ⟨false, dataLen, by tauto, by simp⟩
              · right; left
                rcases writeOneFork_calls _ _ _ _ hm2 with h | h | h <;>
                  exact ⟨true, rsrcLen, by tauto, fun _ => hrl⟩
          · rcases writeOneFork_openLeft d true rsrcLen with ho | ho <;> rw [ho] at hr
            · cases hr
            · obtain rfl := Option.some_inj.1 hr
              right; left
              exact ⟨true, rsrcLen, Or.inr (Or.inr hcl), fun _ => hrl⟩
          · right; right; exact hdel
        · rw [if_neg hrl] at hcall
          rcases bailCleanup_calls _ _ _ _ _ hcall with hm | ⟨r, hr, hcl⟩ | hdel
          · rcases List.mem_cons.1 hm with hcr | hm
            · left; exact hcr
            · rcases List.mem_append.1 hm with hm2 | hm2
              · right; left
                rcases writeOneFork_calls _ _ _ _ hm2 with h | h | h <;>
                  exact ⟨false, dataLen, by tauto, by simp⟩
              · simp at hm2
          · cases hr
          · right; right; exact hdel
    · rw [if_neg hdo] at hcall
      rw [if_neg (show ¬ ((DIError.noErr, ([] : List DriverCall),
          (none : Option Bool)).1 ≠ DIError.noErr) by simp)] at hcall
      by_cases hrl : rsrcLen > 0
      · rw [if_pos hrl] at hcall
        rcases bailCleanup_calls _ _ _ _ _ hcall with hm | ⟨r, hr, hcl⟩ | hdel
        · rcases List.mem_cons.1 hm with hcr | hm
          · left; exact hcr
          · rcases List.mem_append.1 hm with hm2 | hm2
            · simp at hm2
            · right; left
              rcases writeOneFork_calls _ _ _ _ hm2 with h | h | h <;>
                exact ⟨true, rsrcLen, by tauto, fun _ => hrl⟩
        · rcases writeOneFork_openLeft d true rsrcLen with ho | ho <;> rw [ho] at hr
          · cases hr
          · obtain rfl := Option.some_inj.1 hr
            right; left
            exact ⟨true, rsrcLen, Or.inr (Or.inr hcl), fun _ => hrl⟩
        · right; right; exact hdel
      · rw [if_neg hrl] at hcall
        rcases bailCleanup_calls _ _ _ _ _ hcall with hm | ⟨r, hr, hcl⟩ | hdel
        · rcases List.mem_cons.1 hm with hcr | hm
          · left; exact hcr
          · simp at hm
        · cases hr
        · right; right; exact hdel

/-- Helper: when a file was created and an error is being returned, the
create-and-write tail ends its trace with the cleanup delete. -/
lemma addForksCore_cleanup (d : Driver) (q : CreateParms) (dataLen rsrcLen : Int)
    (hc : d.createErr = DIError.noErr) (hg : d.createGivesFile = true)
    (he : (addForksCore d q dataLen rsrcLen).1 ≠ DIError.noErr) :
    ∃ t, (addForksCore d q dataLen rsrcLen).2 = t ++ [DriverCall.deleteFile] := by
  revert he
  unfold addForksCore
  rw [if_neg (by simp [hc])]
  dsimp only
  by_cases hdo : dataLen > 0 ∨ (dataLen = 0 ∧ d.createGivesFile = true)
  · rw [if_pos hdo]
    by_cases hw1 : (writeOneFork d false dataLen).1 ≠ DIError.noErr
    · rw [if_pos hw1]
      intro he
      exact bailCleanup_delete_last _ _ _ _ hw1 hg
    · rw [if_neg hw1]
      intro he
      rw [bailCleanup_fst] at he
      exact bailCleanup_delete_last _ _ _ _ he hg
  · rw [if_neg hdo]
    rw [if_neg (show ¬ ((DIError.noErr, ([] : List DriverCall),
        (none : Option Bool)).1 ≠ DIError.noErr) by simp)]
    intro he
    rw [bailCleanup_fst] at he
    exact bailCleanup_delete_last _ _ _ _ he hg

/-- Helper: on a non-directory request, AddForksToDisk reduces to the
create-and-write tail — with the resource fork dropped and the storage
type demoted to seedling when the destination lacks resource forks — or
to an immediate silent success when the drop leaves no fork at all. -/
lemma addForksToDisk_reduce (caps : FSCaps) (d : Driver) (p : CreateParms)
    (dataLen0 rsrcLen0 : Int)
    (hrw : emptyDirRewrite p dataLen0 = (p, dataLen0))
    (hst : p.storageType ≠ StorageType.directory) :
    (¬ (caps.hasResourceForks = false ∧ rsrcLen0 ≥ 0) →
      AddForksToDisk caps d p dataLen0 rsrcLen0 =
        addForksCore d { p with fileType := dosTypeFixup caps p.fileType dataLen0 }
          dataLen0 rsrcLen0)
    ∧ ((caps.hasResourceForks = false ∧ rsrcLen0 ≥ 0) → dataLen0 < 0 →
      AddForksToDisk caps d p dataLen0 rsrcLen0 = (DIError.noErr, []))
    ∧ ((caps.hasResourceForks = false ∧ rsrcLen0 ≥ 0) → ¬ dataLen0 < 0 →
      AddForksToDisk caps d p dataLen0 rsrcLen0 =
        addForksCore d
          { p with
            storageType := StorageType.seedling
            fileType := dosTypeFixup caps p.fileType dataLen0 }
          dataLen0 (-1)) := by
  refine ⟨?_, ?_, ?_⟩
  · intro hd
    unfold AddForksToDisk
    rw [hrw]
    dsimp only
    rw [if_neg hst, if_neg (fun hh => hd hh.1), if_neg hd, if_neg hd]
  · intro hd hneg
    unfold AddForksToDisk
    rw [hrw]
    dsimp only
    rw [if_neg hst, if_pos ⟨hd, hneg⟩]
  · intro hd hneg
    unfold AddForksToDisk
    rw [hrw]
    dsimp only
    rw [if_neg hst, if_neg (fun hh => hneg hh.2), if_pos hd, if_pos hd]

/-- C7: against a destination format without resource-fork support, a
create request carrying a resource fork never produces an error from the
fork itself: the resource fork is dropped — every create call the driver
sees uses seedling storage and no resource-fork open, write or close is
ever issued — and when the drop leaves no fork at all the whole add
returns success without a single driver call. -/
theorem addForksToDisk_rsrcDrop (caps : FSCaps) (d : Driver) (p : CreateParms)
    (dataLen0 rsrcLen0 : Int)
    (hcap : caps.hasResourceForks = false)
    (hr : rsrcLen0 ≥ 0)
    (hst : p.storageType = StorageType.extended) :
    (dataLen0 < 0 → AddForksToDisk caps d p dataLen0 rsrcLen0 = (DIError.noErr, []))
    ∧ (∀ call ∈ (AddForksToDisk caps d p dataLen0 rsrcLen0).2,
        (∀ q, call = DriverCall.createFile q → q.storageType = StorageType.seedling)
        ∧ call ≠ DriverCall.openFork true
        ∧ (∀ len, call ≠ DriverCall.writeFork true len)
        ∧ call ≠ DriverCall.closeFork true) := by
  have hrw : emptyDirRewrite p dataLen0 = (p, dataLen0) :=
    emptyDirRewrite_of_nonseedling p dataLen0 (by simp [hst])
  have hred := addForksToDisk_reduce caps d p dataLen0 rsrcLen0 hrw (by simp [hst])
  constructor
  · intro hneg
    exact hred.2.1 ⟨hcap, hr⟩ hneg
  · intro call hcall
    by_cases hneg : dataLen0 < 0
    · rw [hred.2.1 ⟨hcap, hr⟩ hneg] at hcall
      simp at hcall
    · rw [hred.2.2 ⟨hcap, hr⟩ hneg] at hcall
      rcases addForksCore_calls _ _ _ _ _ hcall with hcr | ⟨r, len2, hopts, hrg⟩ | hdel
      · subst hcr
        refine ⟨?_, by simp, fun len => by simp, by simp⟩
        intro q2 hq2
        injection hq2 with h
        rw [← h]
      · have hrf : r = false := by
          cases r
          · rfl
          · exact absurd (hrg rfl) (by decide)
        subst hrf
        rcases hopts with h | h | h <;> subst h <;>
          exact ⟨fun q2 hq2 => (by cases hq2), by simp, fun len => by simp, by simp⟩
      · subst hdel
        exact ⟨fun q2 hq2 => (by cases hq2), by simp, fun len => by simp, by simp⟩

/-- Witness for C7: a resource-fork-only file added to a DOS disk is a
silent no-op — success and an empty driver trace. -/
theorem addForksToDisk_rsrcDrop_witness :
    AddForksToDisk ⟨false, false, true⟩
      ⟨DIError.noErr, true, DIError.noErr, DIError.noErr, DIError.noErr,
       DIError.noErr, DIError.noErr, DIError.noErr, DIError.noErr⟩
      ⟨['P'], ':', StorageType.extended, 6, 0, 0⟩ (-1) 3 =
      (DIError.noErr, []) :=
  (addForksToDisk_rsrcDrop _ _ _ _ _ rfl (by decide) rfl).1 (by decide)

/-- C8: whenever a fork open, write or close fails after the entry was
successfully created, AddForksToDisk deletes the just-created entry as
its final driver call before propagating the error, and the outcome —
error code and trace alike — is unaffected by whatever the delete call
itself returns. -/
theorem addForksToDisk_cleanup (caps : FSCaps) (d : Driver) (p : CreateParms)
    (dataLen0 rsrcLen0 : Int)
    (hnd : (emptyDirRewrite p dataLen0).1.storageType ≠ StorageType.directory)
    (hc : d.createErr = DIError.noErr)
    (hg : d.createGivesFile = true)
    (he : (AddForksToDisk caps d p dataLen0 rsrcLen0).1 ≠ DIError.noErr) :
    (∃ t, (AddForksToDisk caps d p dataLen0 rsrcLen0).2 = t ++ [DriverCall.deleteFile])
    ∧ (∀ x, AddForksToDisk caps { d with deleteErr := x } p dataLen0 rsrcLen0 =
        AddForksToDisk caps d p dataLen0 rsrcLen0) := by
  have hrw : emptyDirRewrite p dataLen0 = (p, dataLen0) :=
    (emptyDirRewrite_eq_or_dir p dataLen0).resolve_right hnd
  have hst : p.storageType ≠ StorageType.directory := by
    rw [hrw] at hnd
    exact hnd
  have hred := addForksToDisk_reduce caps d p dataLen0 rsrcLen0 hrw hst
  constructor
  · by_cases hd : caps.hasResourceForks = false ∧ rsrcLen0 ≥ 0
    · by_cases hneg : dataLen0 < 0
      · rw [hred.2.1 hd hneg] at he
        exact absurd rfl he
      · rw [hred.2.2 hd hneg] at he ⊢
        exact addForksCore_cleanup _ _ _ _ hc hg he
    · rw [hred.1 hd] at he ⊢
      exact addForksCore_cleanup _ _ _ _ hc hg he
  · intro x
    cases d
    rfl

/-- Witness for C8: a data-fork write failure after a successful create
ends the trace with the cleanup delete, with the delete outcome
irrelevant. -/
theorem addForksToDisk_cleanup_witness :
    (∃ t, (AddForksToDisk ⟨true, true, false⟩
      ⟨DIError.noErr, true, DIError.noErr, DIError.other 1, DIError.noErr,
       DIError.noErr, DIError.noErr, DIError.noErr, DIError.other 7⟩
      ⟨['P'], ':', StorageType.seedling, 6, 0, 0⟩ 5 (-1)).2 =
      t ++ [DriverCall.deleteFile])
    ∧ (∀ x, AddForksToDisk ⟨true, true, false⟩
      ⟨DIError.noErr, true, DIError.noErr, DIError.other 1, DIError.noErr,
       DIError.noErr, DIError.noErr, DIError.noErr, x⟩
      ⟨['P'], ':', StorageType.seedling, 6, 0, 0⟩ 5 (-1) =
      AddForksToDisk ⟨true, true, false⟩
      ⟨DIError.noErr, true, DIError.noErr, DIError.other 1, DIError.noErr,
       DIError.noErr, DIError.noErr, DIError.noErr, DIError.other 7⟩
      ⟨['P'], ':', StorageType.seedling, 6, 0, 0⟩ 5 (-1)) :=
  addForksToDisk_cleanup _ _ _ _ _ (by decide) rfl rfl (by decide)

/-- C9 counterexample: on a DOS-structured destination, a BIN (0x06)
file whose data fork is exactly 65536 bytes — 64 KiB, not one byte more
— is already retyped to the generic 0xf2, contradicting the claim that
files at or below 64 KiB keep their file type. -/
theorem dosTypeFixup_at_64KiB_remaps :
    dosTypeFixup ⟨true, false, true⟩ 0x06 65536 = 0xf2 ∧ (0xf2 : Nat) ≠ 0x06 := by
  exact ⟨by decide, by decide⟩

/-- C9 (amended): on a non-directory request, every create call emitted
by AddForksToDisk carries file type 0xf2 when the destination uses the
DOS file structure, the data fork is at least 65536 bytes (64 KiB or
more), and the incoming type is BIN 0x06, INT 0xfa or BAS 0xfc; in
every other situation — shorter data fork, other file type, or non-DOS
destination — the incoming file type is passed through unchanged. -/
theorem addForksToDisk_dosRetype (caps : FSCaps) (d : Driver) (p : CreateParms)
    (dataLen0 rsrcLen0 : Int)
    (hnd : (emptyDirRewrite p dataLen0).1.storageType ≠ StorageType.directory) :
    ∀ q, DriverCall.createFile q ∈ (AddForksToDisk caps d p dataLen0 rsrcLen0).2 →
      ((caps.usesDOSFileStructure = true ∧ dataLen0 ≥ 65536 ∧
        (p.fileType = 0x06 ∨ p.fileType = 0xfa ∨ p.fileType = 0xfc)) →
        q.fileType = 0xf2)
      ∧ ((caps.usesDOSFileStructure = false ∨ dataLen0 < 65536 ∨
          (p.fileType ≠ 0x06 ∧ p.fileType ≠ 0xfa ∧ p.fileType ≠ 0xfc)) →
        q.fileType = p.fileType) := by
  have hrw : emptyDirRewrite p dataLen0 = (p, dataLen0) :=
    (emptyDirRewrite_eq_or_dir p dataLen0).resolve_right hnd
  have hst : p.storageType ≠ StorageType.directory := by
    rw [hrw] at hnd
    exact hnd
  have hred := addForksToDisk_reduce caps d p dataLen0 rsrcLen0 hrw hst
  have hqft : ∀ q, DriverCall.createFile q ∈ (AddForksToDisk caps d p dataLen0 rsrcLen0).2 →
      q.fileType = dosTypeFixup caps p.fileType dataLen0 := by
    intro q hq
    by_cases hd : caps.hasResourceForks = false ∧ rsrcLen0 ≥ 0
    · by_cases hneg : dataLen0 < 0
      · rw [hred.2.1 hd hneg] at hq
        simp at hq
      · rw [hred.2.2 hd hneg] at hq
        rcases addForksCore_calls _ _ _ _ _ hq with hcr | ⟨r, len2, hopts, -⟩ | hdel
        · injection hcr with h
          rw [h]
        · rcases hopts with h | h | h <;> cases h
        · cases hdel
    · rw [hred.1 hd] at hq
      rcases addForksCore_calls _ _ _ _ _ hq with hcr | ⟨r, len2, hopts, -⟩ | hdel
      · injection hcr with h
        rw [h]
      · rcases hopts with h | h | h <;> cases h
      · cases hdel
  intro q hq
  have hft := hqft q hq
  constructor
  · intro hcond
    rw [hft]
    unfold dosTypeFixup
    rw [if_pos hcond]
  · intro hcond
    rw [hft]
    unfold dosTypeFixup
    rw [if_neg]
    rintro ⟨h1, h2, h3⟩
    rcases hcond with hh | hh | hh
    · rw [h1] at hh
      cases hh
    · omega
    · tauto

/-- Witness for C9 (amended): a concrete DOS create of a 65536-byte BIN
file carries file type 0xf2 in its create call. -/
theorem addForksToDisk_dosRetype_witness :
    ({ pathName := ['P'], fssep := ':', storageType := StorageType.seedling,
       fileType := 0xf2, auxType := 0, access := 0 } : CreateParms).fileType = 0xf2 :=
  (addForksToDisk_dosRetype ⟨false, false, true⟩
    ⟨DIError.noErr, true, DIError.noErr, DIError.noErr, DIError.noErr,
     DIError.noErr, DIError.noErr, DIError.noErr, DIError.noErr⟩
    ⟨['P'], ':', StorageType.seedling, 0x06, 0, 0⟩ 65536 (-1)
    (by decide) _ (by decide)).1 (by decide)

end DiskArchive






